import Mathlib

/-!
Verification of the Silver-to-Gold dimensional transformation engine of the
supplychain-logistic repository (`src/3-gold/gold_layer_processor.py`).

The engine is embedded shallowly:

* A pandas DataFrame is a `Table`: a list of column names plus a list of rows,
  each row an association list from column name to `Value`.
* Numeric scalars (the ints and floats of the source data) are modelled as
  exact rationals; `Value.vNull` models pandas NaN/NaT.  Two nulls compare
  equal, which matches the semantics of `drop_duplicates` (pandas treats NaN
  as equal to NaN when deduplicating).
* Timestamps are modelled as whole seconds since the Unix epoch, stored as
  integer-valued rationals; `datetime.now()` becomes an explicit `asOf : Int`
  parameter.
* Blob-store I/O is abstracted: the silver container is a list of named
  blobs whose tables have already been downloaded and parsed, and uploads are
  an oracle `String → Bool` giving the success of each put operation.
* The `try/except` wrappers of the source are modelled with `Except` where an
  exception is reachable (the KPI stage) and by totality elsewhere.
-/

namespace GoldLayer

/-- Scalar cell value of a table.  `vNull` models pandas NaN/NaT. -/
inductive Value where
  | vNum  : ℚ → Value
  | vStr  : String → Value
  | vBool : Bool → Value
  | vNull : Value
deriving DecidableEq

abbrev Col := String

/-- A row of a table: an association list from column name to value. -/
abbrev Row := List (Col × Value)

/-- A table: ordered column names and rows (mirrors a pandas DataFrame). -/
structure Table where
  cols : List Col
  rows : List Row
deriving DecidableEq

def emptyTable : Table := ⟨[], []⟩

/-- Reading a column of a row; a missing column reads as null, matching the
NaN fill that pandas performs when frames with different columns are
concatenated. -/
def rowValue (r : Row) (c : Col) : Value := (r.lookup c).getD Value.vNull

/-- Column assignment `df[c] = v` on one row: overwrite in place when the
column exists, append it at the end otherwise (pandas keeps the position of
an existing column and appends a new one). -/
def setCol (r : Row) (c : Col) (v : Value) : Row :=
  if (r.lookup c).isSome then r.map (fun p => cond (p.1 == c) (c, v) p)
  else r ++ [(c, v)]

/-- Column assignment `df[c] = f(row)` on a whole table. -/
def setColumn (t : Table) (c : Col) (f : Row → Value) : Table :=
  ⟨if c ∈ t.cols then t.cols else t.cols ++ [c],
   t.rows.map (fun r => setCol r c (f r))⟩

/-- The allow-listed columns actually present in a table, in allow-list
order: `[col for col in fixed_cols if col in df.columns]`. -/
def availableCols (allow : List Col) (t : Table) : List Col :=
  allow.filter (fun c => decide (c ∈ t.cols))

/-- Restriction of a row to the given columns, in the given order. -/
def projectRow (cs : List Col) (r : Row) : Row :=
  cs.map (fun c => (c, rowValue r c))

/-- Column projection `df[available_cols]`. -/
def projectTable (allow : List Col) (t : Table) : Table :=
  let cs := availableCols allow t
  ⟨cs, t.rows.map (projectRow cs)⟩

/-- Union of the column sets of several tables, first-seen order: the column
layout `pd.concat` produces for frames with differing columns. -/
def unionCols (ts : List Table) : List Col :=
  ts.foldl (fun acc t => acc ++ t.cols.filter (fun c => decide (c ∉ acc))) []

/-- The schema-union concatenation `pd.concat(frames, ignore_index=True)`:
every row is re-read on the union column set, so columns a source lacked
become null. -/
def concatTables (ts : List Table) : Table :=
  let cs := unionCols ts
  ⟨cs, ((ts.map Table.rows).flatten).map (projectRow cs)⟩

/-- Helper for first-occurrence deduplication, carrying the set of values
already emitted. -/
def dedupFirstAux {α : Type} [DecidableEq α] (seen : List α) : List α → List α
  | [] => []
  | a :: l => if a ∈ seen then dedupFirstAux seen l else a :: dedupFirstAux (a :: seen) l

/-- First-occurrence deduplication: `df.drop_duplicates()` (keep="first",
full-row equality, order preserving). -/
def dedupFirst {α : Type} [DecidableEq α] (l : List α) : List α := dedupFirstAux [] l

/-- Per-source `df[available_cols].drop_duplicates()`. -/
def projectDedup (allow : List Col) (t : Table) : Table :=
  let p := projectTable allow t
  ⟨p.cols, dedupFirst p.rows⟩

/-- Insertion into a list sorted by the boolean relation. -/
def insertSorted {α : Type} (le : α → α → Bool) (a : α) : List α → List α
  | [] => [a]
  | b :: l => if le a b then a :: b :: l else b :: insertSorted le a l

/-- Insertion sort, used to model the ascending key sort that
`groupby(..., sort=True)` (the pandas default) applies to group keys. -/
def sortBy {α : Type} (le : α → α → Bool) (l : List α) : List α :=
  l.foldr (insertSorted le) []

section BasicLemmas

theorem lookup_append {α β : Type} [BEq α] (c : α) (l1 l2 : List (α × β)) :
    (l1 ++ l2).lookup c = ((l1.lookup c).orElse (fun _ => l2.lookup c)) := by
  induction l1 with
  | nil => rfl
  | cons p t ih =>
    obtain ⟨k, v⟩ := p
    cases h : (c == k) <;> simp [List.lookup, h, ih]

theorem lookup_replace_self (r : Row) (c : Col) (v : Value) :
    (r.map (fun p => cond (p.1 == c) (c, v) p)).lookup c =
      (r.lookup c).map (fun _ => v) := by
  induction r with
  | nil => rfl
  | cons p t ih =>
    obtain ⟨k, w⟩ := p
    cases h : (k == c)
    · have h2 : (c == k) = false := by
        simp only [beq_eq_false_iff_ne] at h ⊢
        exact fun he => h he.symm
      simp [List.lookup, h, h2, ih]
    · have h2 : (c == k) = true := by
        simp only [beq_iff_eq] at h ⊢
        exact h.symm
      simp [List.lookup, h, h2]

theorem lookup_replace_ne (r : Row) (c c2 : Col) (v : Value) (h : c2 ≠ c) :
    (r.map (fun p => cond (p.1 == c) (c, v) p)).lookup c2 = r.lookup c2 := by
  induction r with
  | nil => rfl
  | cons p t ih =>
    obtain ⟨k, w⟩ := p
    cases hk : (k == c)
    · cases h2 : (c2 == k) <;> simp [List.lookup, hk, h2, ih]
    · have hkc : k = c := by simpa using hk
      subst hkc
      have h2 : (c2 == k) = false := by simpa using h
      simp [List.lookup, hk, h2, ih]

theorem rowValue_setCol_self (r : Row) (c : Col) (v : Value) :
    rowValue (setCol r c v) c = v := by
  unfold setCol
  by_cases h : (r.lookup c).isSome
  · rw [if_pos h, rowValue, lookup_replace_self]
    obtain ⟨w, hw⟩ := Option.isSome_iff_exists.mp h
    simp [hw]
  · rw [if_neg h, rowValue, lookup_append]
    rw [Option.not_isSome_iff_eq_none] at h
    simp [h, List.lookup]

theorem rowValue_setCol_ne (r : Row) (c c2 : Col) (v : Value) (h : c2 ≠ c) :
    rowValue (setCol r c v) c2 = rowValue r c2 := by
  unfold setCol
  by_cases hs : (r.lookup c).isSome
  · rw [if_pos hs, rowValue, lookup_replace_ne r c c2 v h, rowValue]
  · rw [if_neg hs, rowValue, lookup_append]
    have hone : List.lookup c2 [(c, v)] = none := by
      have h2 : (c2 == c) = false := by simpa using h
      simp [List.lookup, h2]
    cases hr : r.lookup c2 <;> simp [hr, hone, rowValue]

theorem rowValue_projectRow (cs : List Col) (r : Row) (c : Col) (h : c ∈ cs) :
    rowValue (projectRow cs r) c = rowValue r c := by
  induction cs with
  | nil => simp at h
  | cons c0 t ih =>
    by_cases hc : c = c0
    · subst hc
      simp [projectRow, rowValue, List.lookup]
    · rcases List.mem_cons.mp h with h1 | h2
      · exact absurd h1 hc
      · have hb : (c == c0) = false := by simpa using hc
        have hih := ih h2
        simp only [projectRow, List.map_cons, rowValue, List.lookup, hb] at hih ⊢
        exact hih

theorem projectRow_map_fst (cs : List Col) (r : Row) :
    (projectRow cs r).map Prod.fst = cs := by
  simp [projectRow, List.map_map, Function.comp_def]

theorem pair_list_eq_of_map_eq (cs : List Col) (f g : Col → Value)
    (h : cs.map f = cs.map g) :
    cs.map (fun c => (c, f c)) = cs.map (fun c => (c, g c)) := by
  induction cs with
  | nil => rfl
  | cons c t ih =>
    simp only [List.map_cons, List.cons.injEq] at h ⊢
    exact ⟨by rw [h.1], ih h.2⟩

theorem dedupFirstAux_sublist {α : Type} [DecidableEq α] (l : List α) :
    ∀ seen, List.Sublist (dedupFirstAux seen l) l := by
  induction l with
  | nil => intro seen; simp [dedupFirstAux]
  | cons a l ih =>
    intro seen
    rw [dedupFirstAux]
    by_cases h : a ∈ seen
    · rw [if_pos h]
      exact (ih seen).cons a
    · rw [if_neg h]
      exact (ih (a :: seen)).cons₂ a

theorem dedupFirst_sublist {α : Type} [DecidableEq α] (l : List α) :
    List.Sublist (dedupFirst l) l :=
  dedupFirstAux_sublist l []

theorem dedupFirst_subset {α : Type} [DecidableEq α] (l : List α) :
    ∀ x ∈ dedupFirst l, x ∈ l :=
  fun _ hx => (dedupFirst_sublist l).subset hx

theorem dedupFirstAux_not_seen {α : Type} [DecidableEq α] (l : List α) :
    ∀ seen x, x ∈ dedupFirstAux seen l → x ∉ seen := by
  induction l with
  | nil => intro seen x hx; simp [dedupFirstAux] at hx
  | cons a l ih =>
    intro seen x hx
    rw [dedupFirstAux] at hx
    by_cases h : a ∈ seen
    · rw [if_pos h] at hx
      exact ih seen x hx
    · rw [if_neg h] at hx
      rcases List.mem_cons.mp hx with rfl | hx2
      · exact h
      · intro hseen
        exact ih (a :: seen) x hx2 (List.mem_cons_of_mem a hseen)

theorem dedupFirstAux_nodup {α : Type} [DecidableEq α] (l : List α) :
    ∀ seen, (dedupFirstAux seen l).Nodup := by
  induction l with
  | nil => intro seen; simp [dedupFirstAux]
  | cons a l ih =>
    intro seen
    rw [dedupFirstAux]
    by_cases h : a ∈ seen
    · rw [if_pos h]; exact ih seen
    · rw [if_neg h]
      refine List.Nodup.cons ?_ (ih (a :: seen))
      intro hmem
      exact dedupFirstAux_not_seen l (a :: seen) a hmem (List.mem_cons_self a seen)

theorem dedupFirst_nodup {α : Type} [DecidableEq α] (l : List α) :
    (dedupFirst l).Nodup :=
  dedupFirstAux_nodup l []

theorem mem_insertSorted {α : Type} (le : α → α → Bool) (a x : α) (l : List α) :
    x ∈ insertSorted le a l → x = a ∨ x ∈ l := by
  induction l with
  | nil => intro h; simpa [insertSorted] using h
  | cons b t ih =>
    intro h
    rw [insertSorted] at h
    by_cases hle : le a b
    · rw [if_pos hle] at h
      rcases List.mem_cons.mp h with rfl | h2
      · exact Or.inl rfl
      · exact Or.inr h2
    · rw [if_neg hle] at h
      rcases List.mem_cons.mp h with rfl | h2
      · exact Or.inr (List.mem_cons_self _ _)
      · rcases ih h2 with h3 | h3
        · exact Or.inl h3
        · exact Or.inr (List.mem_cons_of_mem _ h3)

theorem mem_sortBy {α : Type} (le : α → α → Bool) (l : List α) :
    ∀ x ∈ sortBy le l, x ∈ l := by
  induction l with
  | nil => intro x hx; simp [sortBy] at hx
  | cons a t ih =>
    intro x hx
    rw [sortBy, List.foldr_cons] at hx
    rcases mem_insertSorted le a x _ hx with rfl | h2
    · exact List.mem_cons_self _ _
    · exact List.mem_cons_of_mem _ (ih x h2)

end BasicLemmas

/-! ### Calendar arithmetic

Models the date accessors the source applies to `pd.date_range` output
(`.year`, `.quarter`, `.month`, `.strftime`, `.isocalendar().week`,
`.dayofyear`, `.day`, `.dayofweek`).  Days count from the Unix epoch
(1970-01-01, a Thursday); `dayOfWeek` uses the pandas convention Monday = 0.
The civil-calendar conversions follow the standard era-based algorithm for
the proleptic Gregorian calendar. -/

/-- Convert a count of days since 1970-01-01 to (year, month, day). -/
def civilFromDays (z : Int) : Int × Int × Int :=
  let z2 := z + 719468
  let era := z2 / 146097
  let doe := z2 - era * 146097
  let yoe := (doe - doe/1460 + doe/36524 - doe/146096) / 365
  let y := yoe + era * 400
  let doy := doe - (365*yoe + yoe/4 - yoe/100)
  let mp := (5*doy + 2)/153
  let d := doy - (153*mp+2)/5 + 1
  let m := mp + (if mp < 10 then 3 else -9)
  (y + (if m ≤ 2 then 1 else 0), m, d)

/-- Convert a (year, month, day) civil date to days since 1970-01-01. -/
def daysFromCivil (y m d : Int) : Int :=
  let y2 := y - (if m ≤ 2 then 1 else 0)
  let era := y2 / 400
  let yoe := y2 - era * 400
  let doy := (153*(m + (if 2 < m then -3 else 9)) + 2)/5 + d - 1
  let doe := yoe*365 + yoe/4 - yoe/100 + doy
  era*146097 + doe - 719468

/-- Day of the week with Monday = 0 (the pandas `dayofweek` convention;
1970-01-01 was a Thursday, hence the offset 3). -/
def dayOfWeek (d : Int) : Int := (d + 3) % 7

/-- ISO-8601 week number (the week containing the first Thursday of the
year is week 1), modelling `isocalendar().week`. -/
def isoWeek (d : Int) : Int :=
  let thursday := d + 3 - dayOfWeek d
  let y := (civilFromDays thursday).1
  (thursday - daysFromCivil y 1 1) / 7 + 1

def monthNameOf (m : Int) : String :=
  if m = 1 then "January" else if m = 2 then "February" else if m = 3 then "March"
  else if m = 4 then "April" else if m = 5 then "May" else if m = 6 then "June"
  else if m = 7 then "July" else if m = 8 then "August" else if m = 9 then "September"
  else if m = 10 then "October" else if m = 11 then "November" else "December"

def dayNameOf (w : Int) : String :=
  if w = 0 then "Monday" else if w = 1 then "Tuesday" else if w = 2 then "Wednesday"
  else if w = 3 then "Thursday" else if w = 4 then "Friday" else if w = 5 then "Saturday"
  else "Sunday"

def secondsPerDay : Int := 86400

/-- One row of the time dimension for the timestamp `t` (seconds since the
epoch, time-of-day preserved exactly as `pd.date_range` preserves the
time-of-day of its endpoints).  Mirrors the column dictionary built in
`_create_time_dimension`. -/
def mkTimeRow (t : Int) : Row :=
  let d := t / secondsPerDay
  let cv := civilFromDays d
  let y := cv.1
  let m := cv.2.1
  let dom := cv.2.2
  let w := dayOfWeek d
  [ ("date_key", Value.vNum ((y*10000 + m*100 + dom : Int) : ℚ)),
    ("date", Value.vNum ((t : ℚ))),
    ("year", Value.vNum ((y : ℚ))),
    ("quarter", Value.vNum (((m-1)/3 + 1 : Int) : ℚ)),
    ("month", Value.vNum ((m : ℚ))),
    ("month_name", Value.vStr (monthNameOf m)),
    ("week", Value.vNum ((isoWeek d : ℚ))),
    ("day_of_year", Value.vNum ((d - daysFromCivil y 1 1 + 1 : Int) : ℚ)),
    ("day_of_month", Value.vNum ((dom : ℚ))),
    ("day_of_week", Value.vNum ((w : ℚ))),
    ("day_name", Value.vStr (dayNameOf w)),
    ("is_weekend", Value.vBool (w == 5 || w == 6)),
    ("is_holiday", Value.vBool false),
    ("fiscal_year", Value.vNum ((y : ℚ))),
    ("fiscal_quarter", Value.vNum (((m-1)/3 + 1 : Int) : ℚ)) ]

def timeDimCols : List Col :=
  ["date_key", "date", "year", "quarter", "month", "month_name", "week",
   "day_of_year", "day_of_month", "day_of_week", "day_name", "is_weekend",
   "is_holiday", "fiscal_year", "fiscal_quarter"]

/-- The time dimension `_create_time_dimension` builds from the run start
`asOf`: `pd.date_range(start=asOf - 730 days, end=asOf, freq="D")` yields the
731 timestamps `asOf - 730 days + k days` for `k = 0, ..., 730` (both
endpoints land exactly on the range because the span is a whole number of
days). -/
def timeDim (asOf : Int) : Table :=
  ⟨timeDimCols,
   (List.range 731).map (fun (k : Nat) => mkTimeRow (asOf - 730*secondsPerDay + (k : Int) * secondsPerDay))⟩

section TimeLemmas

theorem timeDim_length (asOf : Int) : (timeDim asOf).rows.length = 731 := by
  rw [timeDim]
  rw [List.length_map, List.length_range]

theorem rowValue_mkTimeRow_weekend (t : Int) :
    rowValue (mkTimeRow t) "is_weekend" =
      Value.vBool ((dayOfWeek (t / secondsPerDay)) == 5 || (dayOfWeek (t / secondsPerDay)) == 6) := rfl

theorem rowValue_mkTimeRow_dow (t : Int) :
    rowValue (mkTimeRow t) "day_of_week" = Value.vNum ((dayOfWeek (t / secondsPerDay) : Int) : ℚ) := rfl

theorem rowValue_mkTimeRow_date (t : Int) :
    rowValue (mkTimeRow t) "date" = Value.vNum ((t : ℚ)) := rfl

end TimeLemmas

/-! ### Category classification and the dimension / fact builders -/

/-- Substring containment, modelling the Python test `token in blob.name`. -/
def strContains (s pat : String) : Bool := decide (pat.toList <:+: s.toList)

/-- Suffix test, modelling `blob.name.endswith(suffix)`. -/
def strEndsWith (s pat : String) : Bool := pat.toList.isSuffixOf s.toList

/-- A silver blob whose CSV content has already been downloaded and parsed
(download failures make the loop skip the blob, so only readable blobs are
modelled). -/
structure Blob where
  name : String
  table : Table
deriving DecidableEq

/-- The blobs the per-blob loops actually process: those whose name ends in
`_silver.csv`. -/
def silverTables (blobs : List Blob) : List Blob :=
  blobs.filter (fun b => strEndsWith b.name "_silver.csv")

/-- The name-keyed branch of the dimension loop.  It is an if/elif chain, so
a blob falls in at most one branch, the first whose token its name
contains. -/
inductive DimNameCat where
  | ordersLike | vehicles | suppliers | warehouses
deriving DecidableEq

def dimNameCategory (name : String) : Option DimNameCat :=
  if strContains name "orders" || strContains name "order_items" then some .ordersLike
  else if strContains name "vehicles" then some .vehicles
  else if strContains name "suppliers" then some .suppliers
  else if strContains name "warehouses" then some .warehouses
  else none

/-- The if/elif chain of the fact loop. -/
inductive FactCat where
  | orders | performance | fuel | inventory
deriving DecidableEq

def factCategory (name : String) : Option FactCat :=
  if strContains name "orders" then some .orders
  else if strContains name "performance" then some .performance
  else if strContains name "fuel" then some .fuel
  else if strContains name "inventory" then some .inventory
  else none

def customerCols : List Col :=
  ["customer_id", "customer_name", "customer_email", "customer_phone", "customer_type"]
def productCols : List Col :=
  ["product_id", "product_name", "product_category", "product_price", "product_weight"]
def vehicleCols : List Col :=
  ["vehicle_id", "vehicle_type", "make", "model", "year", "capacity", "fuel_type"]
def supplierCols : List Col :=
  ["supplier_id", "supplier_name", "contact_person", "email", "phone", "rating"]
def warehouseCols : List Col :=
  ["warehouse_id", "warehouse_name", "location", "city", "country", "capacity"]
def geoCols : List Col :=
  ["city", "country", "latitude", "longitude", "region"]

/-- Customer-dimension accumulator: an orders-like blob contributes its
deduplicated customer attribute subset, gated on a column literally named
`customer` being present (the source tests `"customer" in df.columns`). -/
def customerData (blobs : List Blob) : List Table :=
  (silverTables blobs).filterMap (fun b =>
    if dimNameCategory b.name = some .ordersLike ∧ "customer" ∈ b.table.cols ∧
       availableCols customerCols b.table ≠ []
    then some (projectDedup customerCols b.table) else none)

/-- Product-dimension accumulator, gated on a column literally named
`product`. -/
def productData (blobs : List Blob) : List Table :=
  (silverTables blobs).filterMap (fun b =>
    if dimNameCategory b.name = some .ordersLike ∧ "product" ∈ b.table.cols ∧
       availableCols productCols b.table ≠ []
    then some (projectDedup productCols b.table) else none)

def vehicleData (blobs : List Blob) : List Table :=
  (silverTables blobs).filterMap (fun b =>
    if dimNameCategory b.name = some .vehicles ∧ availableCols vehicleCols b.table ≠ []
    then some (projectDedup vehicleCols b.table) else none)

def supplierData (blobs : List Blob) : List Table :=
  (silverTables blobs).filterMap (fun b =>
    if dimNameCategory b.name = some .suppliers ∧ availableCols supplierCols b.table ≠ []
    then some (projectDedup supplierCols b.table) else none)

def warehouseData (blobs : List Blob) : List Table :=
  (silverTables blobs).filterMap (fun b =>
    if dimNameCategory b.name = some .warehouses ∧ availableCols warehouseCols b.table ≠ []
    then some (projectDedup warehouseCols b.table) else none)

/-- Geography accumulator: independent of the name chain, keyed on the
presence of any location column. -/
def geographyData (blobs : List Blob) : List Table :=
  (silverTables blobs).filterMap (fun b =>
    if ("city" ∈ b.table.cols ∨ "country" ∈ b.table.cols ∨ "latitude" ∈ b.table.cols ∨
        "longitude" ∈ b.table.cols) ∧ availableCols geoCols b.table ≠ []
    then some (projectDedup geoCols b.table) else none)

/-- Dimension assembly: `pd.concat(data, ignore_index=True).drop_duplicates()`
followed by `dim[key] = range(1, len(dim)+1)`.  Yields nothing when no
candidate contributed (the dimension is omitted from the output set). -/
def buildDim (keyName : Col) (data : List Table) : Option Table :=
  match data with
  | [] => none
  | _ :: _ =>
    let c := concatTables data
    let dd := dedupFirst c.rows
    some ⟨(if keyName ∈ c.cols then c.cols else c.cols ++ [keyName]),
          dd.enum.map (fun p => setCol p.2 keyName (Value.vNum ((p.1 : ℚ) + 1)))⟩

def optEntry (n : String) : Option Table → List (String × Table)
  | some t => [(n, t)]
  | none => []

/-- The dimension dictionary `_create_dimension_tables` returns, in insertion
order; `dim_time` is always present and is the only entry that depends on
the run start. -/
def goldDimensions (blobs : List Blob) (asOf : Int) : List (String × Table) :=
  optEntry "dim_customer" (buildDim "customer_key" (customerData blobs)) ++
  optEntry "dim_product" (buildDim "product_key" (productData blobs)) ++
  optEntry "dim_vehicle" (buildDim "vehicle_key" (vehicleData blobs)) ++
  optEntry "dim_supplier" (buildDim "supplier_key" (supplierData blobs)) ++
  optEntry "dim_warehouse" (buildDim "warehouse_key" (warehouseData blobs)) ++
  optEntry "dim_geography" (buildDim "geography_key" (geographyData blobs)) ++
  [("dim_time", timeDim asOf)]

def ordersFactCols : List Col :=
  ["order_id", "customer_id", "product_id", "order_date", "quantity", "unit_price", "total_amount"]
def performanceFactCols : List Col :=
  ["vehicle_id", "date", "distance_traveled", "fuel_consumed", "delivery_time", "efficiency_score"]
def fuelFactCols : List Col :=
  ["vehicle_id", "date", "fuel_type", "fuel_consumed", "cost", "efficiency"]
def inventoryFactCols : List Col :=
  ["product_id", "warehouse_id", "date", "quantity_on_hand", "quantity_ordered", "quantity_sold"]

/-- Fact accumulator for one category: the column-projected (but not
deduplicated) subsets of every matching blob with at least one allow-listed
column. -/
def factData (blobs : List Blob) (cat : FactCat) (allow : List Col) : List Table :=
  (silverTables blobs).filterMap (fun b =>
    if factCategory b.name = some cat ∧ availableCols allow b.table ≠ []
    then some (projectTable allow b.table) else none)

/-- Fact assembly: plain concatenation, omitted when nothing matched. -/
def concatNonempty (data : List Table) : Option Table :=
  match data with
  | [] => none
  | _ :: _ => some (concatTables data)

/-- NaN-propagating multiplication of two cells (`quantity * unit_price`). -/
def mulV : Value → Value → Value
  | .vNum a, .vNum b => .vNum (a * b)
  | _, _ => .vNull

/-- The orders fact: after concatenation the source recomputes
`total_amount = quantity * unit_price` whenever both factors are present
(line 395 of the processor tests only the presence of the factors, not the
absence of `total_amount`). -/
def buildOrdersFact (blobs : List Blob) : Option Table :=
  (concatNonempty (factData blobs .orders ordersFactCols)).map (fun f =>
    if "quantity" ∈ f.cols ∧ "unit_price" ∈ f.cols
    then setColumn f "total_amount" (fun r => mulV (rowValue r "quantity") (rowValue r "unit_price"))
    else f)

/-- The fact dictionary `_create_fact_tables` returns, in insertion order. -/
def goldFactTables (blobs : List Blob) : List (String × Table) :=
  optEntry "fact_orders" (buildOrdersFact blobs) ++
  optEntry "fact_performance" (concatNonempty (factData blobs .performance performanceFactCols)) ++
  optEntry "fact_fuel_consumption" (concatNonempty (factData blobs .fuel fuelFactCols)) ++
  optEntry "fact_inventory" (concatNonempty (factData blobs .inventory inventoryFactCols))

/-! ### KPI calculation

`_calculate_kpis` wraps its whole body in one `try/except` that degrades to
an empty dictionary, so an exception anywhere (a `KeyError` from an
aggregation over a missing column) discards every KPI; this is modelled
with `Except`.  `_calculate_supply_chain_kpis` has its own guard and is
total. -/

/-- Recover a timestamp (whole seconds since the epoch) from a cell, the
successful branch of `pd.to_datetime(col, errors="coerce")`. -/
def parseTs : Value → Option Int
  | .vNum q => if q.den = 1 then some q.num else none
  | _ => none

def numOf : Value → Option ℚ
  | .vNum q => some q
  | _ => none

/-- Aggregation `sum`: null (and non-numeric) cells contribute nothing,
matching the default `skipna=True`; an all-null column sums to 0. -/
def sumCol (rows : List Row) (c : Col) : ℚ :=
  rows.foldr (fun r acc => ((numOf (rowValue r c)).getD 0) + acc) 0

/-- Aggregation `count`: the number of non-null cells. -/
def countNonNull (rows : List Row) (c : Col) : Nat :=
  rows.countP (fun r => decide (rowValue r c ≠ Value.vNull))

/-- Aggregation `mean`: sum over count of the non-null cells, null when the
group holds no non-null cell. -/
def meanCol (rows : List Row) (c : Col) : Value :=
  let n := countNonNull rows c
  if n = 0 then Value.vNull else Value.vNum (sumCol rows c / (n : ℚ))

/-- Key order used for the ascending group-key sort of `groupby`.  Group
keys are homogeneous in practice (all dates, all ids, or all names); the
cross-constructor fallback only makes the relation total. -/
def valueRank : Value → Nat
  | .vNull => 0
  | .vBool _ => 1
  | .vNum _ => 2
  | .vStr _ => 3

def valueLe (a b : Value) : Bool :=
  match a, b with
  | .vNum x, .vNum y => decide (x ≤ y)
  | .vStr x, .vStr y => decide (x < y) || x == y
  | .vBool x, .vBool y => !x || y
  | _, _ => decide (valueRank a ≤ valueRank b)

/-- `df.groupby(key).agg(...)` with the default `sort=True`: one group per
distinct key, keys ascending, each group the rows carrying that key. -/
def groupBy (keyOf : Row → Value) (rows : List Row) : List (Value × List Row) :=
  (sortBy valueLe (dedupFirst (rows.map keyOf))).map
    (fun k => (k, rows.filter (fun r => keyOf r == k)))

/-- Lines 432-438: make sure the orders fact carries `total_amount`,
recomputing it from the factors when both are present and otherwise
synthesizing a zero column "to avoid failure". -/
def ensureTotalAmount (f : Table) : Table :=
  if "total_amount" ∈ f.cols then f
  else if "quantity" ∈ f.cols ∧ "unit_price" ∈ f.cols then
    setColumn f "total_amount" (fun r => mulV (rowValue r "quantity") (rowValue r "unit_price"))
  else setColumn f "total_amount" (fun _ => Value.vNum 0)

/-- Lines 440-445: coerce `order_date` to datetime (unparseable cells become
NaT), or an all-NaT column when `order_date` is absent. -/
def coerceOrderDate (f : Table) : Table :=
  if "order_date" ∈ f.cols then
    setColumn f "order_date" (fun r =>
      match parseTs (rowValue r "order_date") with
      | some s => Value.vNum ((s : ℚ))
      | none => Value.vNull)
  else setColumn f "order_date" (fun _ => Value.vNull)

/-- Line 448: `dropna(subset=["order_date"])`. -/
def dropNullOrderDate (f : Table) : Table :=
  ⟨f.cols, f.rows.filter (fun r => decide (rowValue r "order_date" ≠ Value.vNull))⟩

/-- Group key of the daily revenue KPI: `order_date.dt.date`, the timestamp
normalized to midnight. -/
def midnightKey (r : Row) : Value :=
  match parseTs (rowValue r "order_date") with
  | some s => Value.vNum (((s - s % secondsPerDay : Int) : ℚ))
  | none => Value.vNull

/-- Group key of the monthly revenue KPI: `order_date.dt.to_period("M")`,
modelled as the integer year*100 + month (ordered exactly like the
period). -/
def monthKey (r : Row) : Value :=
  match parseTs (rowValue r "order_date") with
  | some s =>
    let cv := civilFromDays (s / secondsPerDay)
    Value.vNum ((cv.1 * 100 + cv.2.1 : Int) : ℚ)
  | none => Value.vNull

/-- One output row of the revenue aggregations: sum of `total_amount`,
count of `order_id`, and the zero-guarded `avg_order_value` the source adds
with `apply` (`revenue / count` when the count is non-zero, else 0.0). -/
def aggRevenueRow (dateName revName : String) (k : Value) (g : List Row) : Row :=
  let rev := sumCol g "total_amount"
  let cnt := countNonNull g "order_id"
  [ (dateName, k), (revName, Value.vNum rev), ("order_count", Value.vNum ((cnt : ℚ))),
    ("avg_order_value", if cnt = 0 then Value.vNum 0 else Value.vNum (rev / (cnt : ℚ))) ]

def dailyRevenueTable (f3 : Table) : Table :=
  ⟨["date", "daily_revenue", "order_count", "avg_order_value"],
   (groupBy midnightKey f3.rows).map (fun p => aggRevenueRow "date" "daily_revenue" p.1 p.2)⟩

def monthlyRevenueTable (f3 : Table) : Table :=
  let f4 := setColumn f3 "year_month" monthKey
  ⟨["year_month", "monthly_revenue", "order_count", "avg_order_value"],
   (groupBy (fun r => rowValue r "year_month") f4.rows).map
     (fun p => aggRevenueRow "year_month" "monthly_revenue" p.1 p.2)⟩

/-- The revenue branch of `_calculate_kpis` (lines 429-472).  The only
reachable exception is the `KeyError` of `.agg({"order_id": "count"})` when
the orders fact lacks an `order_id` column. -/
def revenueKpisE (facts : List (String × Table)) : Except Unit (List (String × Table)) :=
  match facts.lookup "fact_orders" with
  | none => .ok []
  | some f0 =>
    if (dropNullOrderDate (coerceOrderDate (ensureTotalAmount f0))).rows = [] then .ok []
    else if "order_id" ∈ (dropNullOrderDate (coerceOrderDate (ensureTotalAmount f0))).cols then
      .ok [("daily_revenue", dailyRevenueTable (dropNullOrderDate (coerceOrderDate (ensureTotalAmount f0)))),
           ("monthly_revenue", monthlyRevenueTable (dropNullOrderDate (coerceOrderDate (ensureTotalAmount f0))))]
    else .error ()

/-- Exact-rational division of two cells; the source leaves the ratio KPIs
unguarded, so a zero denominator gives the rational junk value 0 where
pandas floats would give inf/NaN (flagged in the spec as a defined edge
case; no claim rests on that cell). -/
def divV : Value → Value → Value
  | .vNum a, .vNum b => .vNum (a / b)
  | _, _ => .vNull

def vehiclePerformanceTable (pf : Table) : Table :=
  ⟨["vehicle_id", "distance_traveled", "fuel_consumed", "delivery_time",
    "efficiency_score", "fuel_efficiency"],
   (groupBy (fun r => rowValue r "vehicle_id") pf.rows).map (fun p =>
     let dist := sumCol p.2 "distance_traveled"
     let fuel := sumCol p.2 "fuel_consumed"
     [("vehicle_id", p.1), ("distance_traveled", Value.vNum dist),
      ("fuel_consumed", Value.vNum fuel),
      ("delivery_time", meanCol p.2 "delivery_time"),
      ("efficiency_score", meanCol p.2 "efficiency_score"),
      ("fuel_efficiency", Value.vNum (dist / fuel))])⟩

/-- The vehicle-performance branch (lines 474-486): aggregating columns a
degraded performance fact lacks raises a `KeyError`. -/
def vehiclePerfE (facts : List (String × Table)) : Except Unit (List (String × Table)) :=
  match facts.lookup "fact_performance" with
  | none => .ok []
  | some pf =>
    if "vehicle_id" ∈ pf.cols ∧ "distance_traveled" ∈ pf.cols ∧ "fuel_consumed" ∈ pf.cols ∧
       "delivery_time" ∈ pf.cols ∧ "efficiency_score" ∈ pf.cols
    then .ok [("vehicle_performance", vehiclePerformanceTable pf)]
    else .error ()

def inventoryTurnoverTable (inv : Table) : Table :=
  ⟨["product_id", "quantity_sold", "quantity_on_hand", "turnover_ratio"],
   (groupBy (fun r => rowValue r "product_id") inv.rows).map (fun p =>
     let sold := sumCol p.2 "quantity_sold"
     let onh := meanCol p.2 "quantity_on_hand"
     [("product_id", p.1), ("quantity_sold", Value.vNum sold),
      ("quantity_on_hand", onh), ("turnover_ratio", divV (Value.vNum sold) onh)])⟩

/-- The inventory-turnover branch (lines 488-498). -/
def inventoryTurnE (facts : List (String × Table)) : Except Unit (List (String × Table)) :=
  match facts.lookup "fact_inventory" with
  | none => .ok []
  | some inv =>
    if "product_id" ∈ inv.cols ∧ "quantity_sold" ∈ inv.cols ∧ "quantity_on_hand" ∈ inv.cols
    then .ok [("inventory_turnover", inventoryTurnoverTable inv)]
    else .error ()

/-- Cell comparison `delivery_date <= estimated_delivery`; comparisons
against NaN are False in pandas. -/
def leV : Value → Value → Bool
  | .vNum a, .vNum b => decide (a ≤ b)
  | .vStr a, .vStr b => decide (a < b) || a == b
  | _, _ => false

/-- `df["source_table"] = blob.name.replace("_silver.csv", "")`. -/
def addSourceTable (b : Blob) : Table :=
  setColumn b.table "source_table" (fun _ => Value.vStr (b.name.replace "_silver.csv" ""))

/-- The cross-table union `_calculate_supply_chain_kpis` builds from every
silver table. -/
def combinedSilver (blobs : List Blob) : Option Table :=
  match (silverTables blobs).map addSourceTable with
  | [] => none
  | ts => some (concatTables ts)

/-- Fraction of rows of a group whose boolean cell is true (`mean` of a
boolean column). -/
def boolMean (rows : List Row) (c : Col) : Value :=
  Value.vNum ((rows.countP (fun r => rowValue r c == Value.vBool true) : ℚ) / (rows.length : ℚ))

def onTimeTable (cd : Table) : Table :=
  let cd2 := setColumn cd "on_time"
    (fun r => Value.vBool (leV (rowValue r "delivery_date") (rowValue r "estimated_delivery")))
  ⟨["table_name", "on_time_delivery_rate"],
   (groupBy (fun r => rowValue r "source_table") cd2.rows).map (fun p =>
     [("table_name", p.1), ("on_time_delivery_rate", boolMean p.2 "on_time")])⟩

def fulfillmentTable (cd : Table) : Table :=
  ⟨["table_name", "fulfillment_rate"],
   (groupBy (fun r => rowValue r "source_table") cd.rows).map (fun p =>
     [("table_name", p.1),
      ("fulfillment_rate",
       Value.vNum ((p.2.countP (fun r => rowValue r "order_status" == Value.vStr "fulfilled") : ℚ) /
         (p.2.length : ℚ)))])⟩

def costEfficiencyTable (cd : Table) : Table :=
  ⟨["source_table", "cost", "revenue", "cost_efficiency_ratio"],
   (groupBy (fun r => rowValue r "source_table") cd.rows).map (fun p =>
     let c := sumCol p.2 "cost"
     let v := sumCol p.2 "revenue"
     [("source_table", p.1), ("cost", Value.vNum c), ("revenue", Value.vNum v),
      ("cost_efficiency_ratio", Value.vNum (v / c))])⟩

/-- `_calculate_supply_chain_kpis` (lines 511-564): three conditional KPIs
over the full silver union, each gated on its required columns. -/
def supplyChainKpis (blobs : List Blob) : List (String × Table) :=
  match combinedSilver blobs with
  | none => []
  | some cd =>
    (if "delivery_date" ∈ cd.cols ∧ "estimated_delivery" ∈ cd.cols
     then [("on_time_delivery", onTimeTable cd)] else []) ++
    (if "order_status" ∈ cd.cols then [("fulfillment_rate", fulfillmentTable cd)] else []) ++
    (if "cost" ∈ cd.cols ∧ "revenue" ∈ cd.cols
     then [("cost_efficiency", costEfficiencyTable cd)] else [])

def calculateKpisE (facts : List (String × Table)) (blobs : List Blob) :
    Except Unit (List (String × Table)) :=
  match revenueKpisE facts with
  | .error e => .error e
  | .ok rev =>
    match vehiclePerfE facts with
    | .error e => .error e
    | .ok vp =>
      match inventoryTurnE facts with
      | .error e => .error e
      | .ok it => .ok (rev ++ vp ++ it ++ supplyChainKpis blobs)

/-- `_calculate_kpis` including its outer `try/except`, which degrades any
exception to the empty KPI dictionary. -/
def calculateKpis (facts : List (String × Table)) (blobs : List Blob) :
    List (String × Table) :=
  match calculateKpisE facts blobs with
  | .ok k => k
  | .error _ => []

/-! ### Analytics views -/

/-- `left.merge(right, on=k, how="left")`: each left row is reproduced once
per matching right row, or once with nulls in the added columns when no
right row matches. -/
def leftJoin (l r : Table) (k : Col) : Table :=
  let rcols := r.cols.filter (fun c => decide (c ≠ k))
  ⟨l.cols ++ rcols,
   l.rows.flatMap (fun lr =>
     match r.rows.filter (fun rr => rowValue rr k == rowValue lr k) with
     | [] => [lr ++ rcols.map (fun c => (c, Value.vNull))]
     | ms => ms.map (fun rr => lr ++ rcols.map (fun c => (c, rowValue rr c))))⟩

/-- Re-coercion `revenue_view["date"] = pd.to_datetime(revenue_view["date"])`
performed before the revenue join (an identity on our already-numeric
midnight dates). -/
def coerceViewDate (dr : Table) : Table :=
  setColumn dr "date" (fun r =>
    match parseTs (rowValue r "date") with
    | some s => Value.vNum ((s : ℚ))
    | none => Value.vNull)

/-- The descriptive dim_time columns the revenue view pulls in. -/
def timeAttrCols : List Col :=
  ["date", "year", "quarter", "month", "month_name", "day_name"]

def revenueView (kpis dims : List (String × Table)) : List (String × Table) :=
  match kpis.lookup "daily_revenue", dims.lookup "dim_time" with
  | some dr, some dt =>
    [("revenue_analytics", leftJoin (coerceViewDate dr) (projectTable timeAttrCols dt) "date")]
  | _, _ => []

def performanceView (kpis dims : List (String × Table)) : List (String × Table) :=
  match kpis.lookup "vehicle_performance", dims.lookup "dim_vehicle" with
  | some vp, some dv =>
    [("performance_analytics",
      leftJoin vp (projectTable ["vehicle_id", "vehicle_type", "make", "model"] dv) "vehicle_id")]
  | _, _ => []

def inventoryView (kpis dims : List (String × Table)) : List (String × Table) :=
  match kpis.lookup "inventory_turnover", dims.lookup "dim_product" with
  | some it, some dp =>
    [("inventory_analytics",
      leftJoin it (projectTable ["product_id", "product_name", "product_category"] dp) "product_id")]
  | _, _ => []

/-- `_create_analytics_views`: three fixed left joins, each omitted when its
KPI or dimension side is absent. -/
def composeViews (kpis dims : List (String × Table)) : List (String × Table) :=
  revenueView kpis dims ++ performanceView kpis dims ++ inventoryView kpis dims

/-! ### Orchestrator -/

/-- The four output families of one run. -/
structure GoldRun where
  dims : List (String × Table)
  facts : List (String × Table)
  kpis : List (String × Table)
  views : List (String × Table)
deriving DecidableEq

/-- One full `process_silver_to_gold` pass over a fixed silver container at
run start `asOf`: dimensions, then facts, then KPIs, then views, each stage
consuming the accumulated outputs of the earlier ones. -/
def goldRun (blobs : List Blob) (asOf : Int) : GoldRun :=
  let d := goldDimensions blobs asOf
  let f := goldFactTables blobs
  let k := calculateKpis f blobs
  let v := composeViews k d
  ⟨d, f, k, v⟩

/-- The statistics record `process_silver_to_gold` returns. -/
structure RunStats where
  total_silver_files : Nat
  dimensions_created : Nat
  facts_created : Nat
  kpis_calculated : Nat
  views_created : Nat
  failed_operations : Nat
deriving DecidableEq

/-- One upload loop: every table of the stage is attempted; a failed put
adds one to the failure counter and the loop moves on. -/
def uploadStage (upload : String → Bool) (dir : String) (tables : List (String × Table))
    (failed : Nat) : Nat :=
  tables.foldl (fun acc nt => if upload (dir ++ nt.1 ++ ".csv") then acc else acc + 1) failed

/-- `process_silver_to_gold` with the upload oracle `upload`: builds all four
stages, uploads each output under its category path, and returns the
statistics record (the function is total: the source catches every
in-stage exception). -/
def processSilverToGold (upload : String → Bool) (blobs : List Blob) (asOf : Int) : RunStats :=
  let g := goldRun blobs asOf
  let f1 := uploadStage upload "dimensions/" g.dims 0
  let f2 := uploadStage upload "facts/" g.facts f1
  let f3 := uploadStage upload "kpis/" g.kpis f2
  let f4 := uploadStage upload "analytics/" g.views f3
  ⟨blobs.length, g.dims.length, g.facts.length, g.kpis.length, g.views.length, f4⟩

unseal Rat.mul Rat.add Rat.inv Rat.sub

/-! ### Claim C4: span and weekend flag of the time dimension -/

set_option maxRecDepth 8000 in
/-- C4: for every `as_of` timestamp the generated time dimension has exactly
731 rows (one per day of the 730-day trailing window, both endpoints
included), and in every row `is_weekend` is true exactly when `day_of_week`
is 5 or 6. -/
theorem timeDim_span_and_weekend (asOf : Int) :
    (timeDim asOf).rows.length = 731 ∧
    ∀ r ∈ (timeDim asOf).rows,
      (rowValue r "is_weekend" = Value.vBool true ↔
        (rowValue r "day_of_week" = Value.vNum 5 ∨ rowValue r "day_of_week" = Value.vNum 6)) := by
  refine ⟨timeDim_length asOf, ?_⟩
  intro r hr
  rw [timeDim] at hr
  simp only [List.mem_map, List.mem_range] at hr
  obtain ⟨k, _, rfl⟩ := hr
  rw [rowValue_mkTimeRow_weekend, rowValue_mkTimeRow_dow]
  have h5 : ((dayOfWeek ((asOf - 730*secondsPerDay + (k : Int)*secondsPerDay) / secondsPerDay) : Int) : ℚ) = (5 : ℚ) ↔
      dayOfWeek ((asOf - 730*secondsPerDay + (k : Int)*secondsPerDay) / secondsPerDay) = 5 := by
    norm_cast
  have h6 : ((dayOfWeek ((asOf - 730*secondsPerDay + (k : Int)*secondsPerDay) / secondsPerDay) : Int) : ℚ) = (6 : ℚ) ↔
      dayOfWeek ((asOf - 730*secondsPerDay + (k : Int)*secondsPerDay) / secondsPerDay) = 6 := by
    norm_cast
  simp [Value.vBool.injEq, Value.vNum.injEq, Bool.or_eq_true, beq_iff_eq, h5, h6]

set_option maxRecDepth 8000 in
/-- Witness for C4 at a concrete run start and the first window row. -/
theorem timeDim_span_and_weekend_witness :
    (timeDim 63072000).rows.length = 731 ∧
    (rowValue (mkTimeRow 0) "is_weekend" = Value.vBool true ↔
      (rowValue (mkTimeRow 0) "day_of_week" = Value.vNum 5 ∨
       rowValue (mkTimeRow 0) "day_of_week" = Value.vNum 6)) := by
  refine ⟨(timeDim_span_and_weekend 63072000).1,
          (timeDim_span_and_weekend 63072000).2 (mkTimeRow 0) ?_⟩
  rw [timeDim]
  refine List.mem_map.mpr ⟨0, List.mem_range.mpr (by norm_num), ?_⟩
  norm_num [secondsPerDay]

/-! ### Claim C5: surrogate keys are dense and in first-seen order -/

/-- C5: whenever the dimension builder produces a table, its surrogate key
column holds exactly the values 1..N in row order (so each value occurs
exactly once and keys are dense). -/
theorem buildDim_keys_dense (keyName : Col) (data : List Table) (d : Table)
    (h : buildDim keyName data = some d) :
    d.rows.map (fun r => rowValue r keyName) =
      (List.range d.rows.length).map (fun (i : Nat) => Value.vNum ((i : ℚ) + 1)) := by
  cases data with
  | nil => simp [buildDim] at h
  | cons t ts =>
    rw [buildDim] at h
    injection h with h
    subst h
    rw [List.map_map]
    have hcomp : ((fun r => rowValue r keyName) ∘
        (fun p : Nat × Row => setCol p.2 keyName (Value.vNum ((p.1 : ℚ) + 1)))) =
        (fun p : Nat × Row => Value.vNum ((p.1 : ℚ) + 1)) := by
      funext p
      exact rowValue_setCol_self p.2 keyName _
    rw [hcomp]
    have h1 : (dedupFirst (concatTables (t :: ts)).rows).enum.map
        (fun p : Nat × Row => Value.vNum ((p.1 : ℚ) + 1)) =
        ((dedupFirst (concatTables (t :: ts)).rows).enum.map Prod.fst).map
          (fun (i : Nat) => Value.vNum ((i : ℚ) + 1)) := by
      rw [List.map_map]
      rfl
    rw [h1, List.enum_map_fst]
    have h2 : ((dedupFirst (concatTables (t :: ts)).rows).enum.map
        (fun p : Nat × Row => setCol p.2 keyName (Value.vNum ((p.1 : ℚ) + 1)))).length =
        (dedupFirst (concatTables (t :: ts)).rows).length := by
      rw [List.length_map, List.enum_length]
    rw [h2]

def dimDataEx : List Table :=
  [⟨["customer_id"],
    [[("customer_id", Value.vNum 1)], [("customer_id", Value.vNum 2)],
     [("customer_id", Value.vNum 1)]]⟩]

/-- Witness for C5 on a concrete candidate list holding a duplicate row. -/
theorem buildDim_keys_dense_witness :
    ((buildDim "customer_key" dimDataEx).getD emptyTable).rows.map
        (fun r => rowValue r "customer_key") =
      (List.range ((buildDim "customer_key" dimDataEx).getD emptyTable).rows.length).map
        (fun (i : Nat) => Value.vNum ((i : ℚ) + 1)) :=
  buildDim_keys_dense "customer_key" dimDataEx _ (by decide)

/-! ### Claim C6: dimension rows are deduplicated -/

/-- C6: whenever the dimension builder produces a table, no two of its rows
agree on every attribute column (the columns of the concatenated candidate
union; the appended surrogate key is excluded from the comparison). -/
theorem buildDim_rows_nodup (keyName : Col) (data : List Table) (d : Table)
    (h : buildDim keyName data = some d)
    (hk : keyName ∉ (concatTables data).cols) :
    (d.rows.map (fun r => (concatTables data).cols.map (fun c => rowValue r c))).Nodup := by
  cases data with
  | nil => simp [buildDim] at h
  | cons t ts =>
    rw [buildDim] at h
    injection h with h
    subst h
    rw [List.map_map]
    rw [List.map_congr_left (g := (fun r => (concatTables (t :: ts)).cols.map
          (fun c => rowValue r c)) ∘ Prod.snd) ?_]
    · rw [← List.map_map, List.enum_map_snd]
      refine List.Nodup.map_on ?_ (dedupFirst_nodup _)
      intro x hx y hy hxy
      obtain ⟨a, ha, rfl⟩ := List.mem_map.mp (dedupFirst_subset _ _ hx)
      obtain ⟨b, hb, rfl⟩ := List.mem_map.mp (dedupFirst_subset _ _ hy)
      have h1 : (concatTables (t :: ts)).cols.map
          (fun c => rowValue (projectRow (unionCols (t :: ts)) a) c) =
          (concatTables (t :: ts)).cols.map (fun c => rowValue a c) :=
        List.map_congr_left (fun c hc => rowValue_projectRow _ a c hc)
      have h2 : (concatTables (t :: ts)).cols.map
          (fun c => rowValue (projectRow (unionCols (t :: ts)) b) c) =
          (concatTables (t :: ts)).cols.map (fun c => rowValue b c) :=
        List.map_congr_left (fun c hc => rowValue_projectRow _ b c hc)
      have h3 : (unionCols (t :: ts)).map (fun c => rowValue a c) =
          (unionCols (t :: ts)).map (fun c => rowValue b c) := by
        rw [h1, h2] at hxy
        exact hxy
      exact pair_list_eq_of_map_eq _ _ _ h3
    · intro p hp
      exact List.map_congr_left (fun c hc =>
        rowValue_setCol_ne p.2 keyName c _ (fun he => hk (he ▸ hc)))

def dimDataEx2 : List Table :=
  [⟨["customer_id"], [[("customer_id", Value.vNum 1)], [("customer_id", Value.vNum 2)]]⟩,
   ⟨["customer_id"], [[("customer_id", Value.vNum 2)]]⟩]

/-- Witness for C6 on candidates whose union holds a cross-table
duplicate. -/
theorem buildDim_rows_nodup_witness :
    (((buildDim "customer_key" dimDataEx2).getD emptyTable).rows.map
      (fun r => (concatTables dimDataEx2).cols.map (fun c => rowValue r c))).Nodup :=
  buildDim_rows_nodup "customer_key" dimDataEx2 _ (by decide) (by decide)

/-! ### Claim C7: fact row count is the sum of the projected contributions -/

/-- C7: whenever a fact category has at least one contributing candidate,
the assembled fact table has exactly as many rows as the column-projected
contributions together: concatenation neither deduplicates nor adds rows. -/
theorem factTable_rowcount (blobs : List Blob) (cat : FactCat) (allow : List Col) (f : Table)
    (h : concatNonempty (factData blobs cat allow) = some f) :
    f.rows.length = ((factData blobs cat allow).map (fun t => t.rows.length)).sum := by
  cases hd : factData blobs cat allow with
  | nil => rw [hd] at h; simp [concatNonempty] at h
  | cons t ts =>
    rw [hd] at h
    rw [concatNonempty] at h
    injection h with h
    subst h
    simp [concatTables, List.map_map, Function.comp_def]

def factBlobsEx : List Blob :=
  [⟨"orders_a_silver.csv",
    ⟨["order_id", "quantity"],
     [[("order_id", Value.vNum 1), ("quantity", Value.vNum 2)],
      [("order_id", Value.vNum 1), ("quantity", Value.vNum 2)]]⟩⟩,
   ⟨"orders_b_silver.csv",
    ⟨["order_id", "unit_price"],
     [[("order_id", Value.vNum 1), ("unit_price", Value.vNum 4)]]⟩⟩]

/-- Witness for C7: two contributing orders sources, one with a duplicated
row, yield 2 + 1 = 3 fact rows. -/
theorem factTable_rowcount_witness :
    ((concatNonempty (factData factBlobsEx .orders ordersFactCols)).getD emptyTable).rows.length =
      ((factData factBlobsEx .orders ordersFactCols).map (fun t => t.rows.length)).sum :=
  factTable_rowcount factBlobsEx .orders ordersFactCols _ (by decide)

/-! ### Claim C2: total_amount in the orders fact -/

def cexOrdersBlob : Blob :=
  ⟨"orders_2024_silver.csv",
   ⟨["order_id", "quantity", "unit_price", "total_amount"],
    [[("order_id", Value.vNum 1), ("quantity", Value.vNum 2),
      ("unit_price", Value.vNum 3), ("total_amount", Value.vNum 100)]]⟩⟩

/-- C2 counterexample: a single orders source that supplies
`total_amount = 100` together with `quantity = 2` and `unit_price = 3`; the
assembled orders fact does not keep the source value (it holds 6 instead),
refuting the claim that a source-supplied `total_amount` survives
unchanged. -/
theorem ordersFact_overwrites_total_amount :
    ((buildOrdersFact [cexOrdersBlob]).getD emptyTable).rows.map
        (fun r => rowValue r "total_amount") ≠
      (projectTable ordersFactCols cexOrdersBlob.table).rows.map
        (fun r => rowValue r "total_amount") := by
  decide

/-- C2 amended: whenever both `quantity` and `unit_price` survive into the
concatenated orders fact, every row gets
`total_amount = quantity * unit_price`, overwriting any source-supplied
value; the source values pass through unchanged only when a factor column
is absent. -/
theorem ordersFact_total_amount_recomputed (blobs : List Blob) (f : Table)
    (h : buildOrdersFact blobs = some f) :
    (("quantity" ∈ (concatTables (factData blobs .orders ordersFactCols)).cols ∧
      "unit_price" ∈ (concatTables (factData blobs .orders ordersFactCols)).cols) →
      ∀ r ∈ f.rows,
        rowValue r "total_amount" = mulV (rowValue r "quantity") (rowValue r "unit_price")) ∧
    (¬ ("quantity" ∈ (concatTables (factData blobs .orders ordersFactCols)).cols ∧
        "unit_price" ∈ (concatTables (factData blobs .orders ordersFactCols)).cols) →
      f = concatTables (factData blobs .orders ordersFactCols)) := by
  cases hd : factData blobs .orders ordersFactCols with
  | nil =>
    rw [buildOrdersFact, hd] at h
    simp [concatNonempty] at h
  | cons t ts =>
    rw [buildOrdersFact, hd] at h
    rw [concatNonempty, Option.map_some'] at h
    injection h with h
    subst h
    constructor
    · intro hqp r hr
      rw [if_pos hqp] at hr
      simp only [setColumn] at hr
      obtain ⟨r0, hr0, rfl⟩ := List.mem_map.mp hr
      rw [rowValue_setCol_self,
          rowValue_setCol_ne r0 "total_amount" "quantity" _ (by decide),
          rowValue_setCol_ne r0 "total_amount" "unit_price" _ (by decide)]
    · intro hqp
      rw [if_neg hqp]

/-- Witness for the amended C2 on the counterexample source. -/
theorem ordersFact_total_amount_recomputed_witness :
    rowValue (((buildOrdersFact [cexOrdersBlob]).getD emptyTable).rows.headD [])
        "total_amount" =
      mulV (rowValue (((buildOrdersFact [cexOrdersBlob]).getD emptyTable).rows.headD [])
              "quantity")
           (rowValue (((buildOrdersFact [cexOrdersBlob]).getD emptyTable).rows.headD [])
              "unit_price") :=
  (ordersFact_total_amount_recomputed [cexOrdersBlob]
      ((buildOrdersFact [cexOrdersBlob]).getD emptyTable) (by decide)).1
    ⟨by decide, by decide⟩ _ (by decide)

/-! ### Claim C3: multi-category contribution versus the if/elif chains -/

def cexDualBlob : Blob :=
  ⟨"orders_performance_silver.csv",
   ⟨["vehicle_id", "distance_traveled", "order_id", "quantity"],
    [[("vehicle_id", Value.vNum 7), ("distance_traveled", Value.vNum 10),
      ("order_id", Value.vNum 1), ("quantity", Value.vNum 2)]]⟩⟩

/-- C3 counterexample: a silver blob whose name contains both the `orders`
and the `performance` token and which carries performance measure columns
feeds only `fact_orders`; no `fact_performance` table is produced, refuting
the claim that a blob matching two fact tokens contributes to both facts. -/
theorem factCategory_first_match_only :
    strContains cexDualBlob.name "performance" = true ∧
    availableCols performanceFactCols cexDualBlob.table ≠ [] ∧
    (goldFactTables [cexDualBlob]).lookup "fact_performance" = none ∧
    (goldFactTables [cexDualBlob]).lookup "fact_orders" ≠ none := by
  decide

/-- C3 amended: category matching is first-match-only along the if/elif
chains: any name containing `orders` classifies as the orders fact no
matter which other tokens it contains; within the orders branch one blob
still contributes independently to the customer dimension (gated on a
literal `customer` column), the product dimension (gated on `product`),
and the orders fact. -/
theorem category_first_match (name : String) (b : Blob) :
    (strContains name "orders" = true → factCategory name = some FactCat.orders) ∧
    (strEndsWith b.name "_silver.csv" = true →
      dimNameCategory b.name = some DimNameCat.ordersLike →
      ("customer" ∈ b.table.cols ∧ availableCols customerCols b.table ≠ [] →
        customerData [b] = [projectDedup customerCols b.table]) ∧
      ("product" ∈ b.table.cols ∧ availableCols productCols b.table ≠ [] →
        productData [b] = [projectDedup productCols b.table])) ∧
    (strEndsWith b.name "_silver.csv" = true → factCategory b.name = some FactCat.orders →
      availableCols ordersFactCols b.table ≠ [] →
      factData [b] .orders ordersFactCols = [projectTable ordersFactCols b.table]) := by
  refine ⟨?_, ?_, ?_⟩
  · intro h
    rw [factCategory]
    simp [h]
  · intro hend hcat
    constructor
    · intro hc
      rw [customerData, silverTables]
      simp [List.filter_cons, hend, List.filterMap_cons, hcat, hc.1, hc.2]
    · intro hc
      rw [productData, silverTables]
      simp [List.filter_cons, hend, List.filterMap_cons, hcat, hc.1, hc.2]
  · intro hend hcat hav
    rw [factData, silverTables]
    simp [List.filter_cons, hend, List.filterMap_cons, hcat, hav]

def exDimBlob : Blob :=
  ⟨"orders_2024_silver.csv",
   ⟨["customer", "customer_id", "customer_name", "product", "product_id",
     "order_id", "order_date", "quantity", "unit_price"],
    [[("customer", Value.vStr "c"), ("customer_id", Value.vNum 1),
      ("customer_name", Value.vStr "Ada"), ("product", Value.vStr "p"),
      ("product_id", Value.vNum 5), ("order_id", Value.vNum 9),
      ("order_date", Value.vNum 1717200000), ("quantity", Value.vNum 2),
      ("unit_price", Value.vNum 3)]]⟩⟩

/-- Witness for the amended C3: a concrete orders blob contributes to the
customer dimension, the product dimension, and the orders fact at once,
and a name holding two fact tokens classifies as orders. -/
theorem category_first_match_witness :
    factCategory "orders_performance_silver.csv" = some FactCat.orders ∧
    customerData [exDimBlob] = [projectDedup customerCols exDimBlob.table] ∧
    productData [exDimBlob] = [projectDedup productCols exDimBlob.table] ∧
    factData [exDimBlob] .orders ordersFactCols = [projectTable ordersFactCols exDimBlob.table] :=
  ⟨(category_first_match "orders_performance_silver.csv" exDimBlob).1 (by decide),
   ((category_first_match "x" exDimBlob).2.1 (by decide) (by decide)).1 ⟨by decide, by decide⟩,
   ((category_first_match "x" exDimBlob).2.1 (by decide) (by decide)).2 ⟨by decide, by decide⟩,
   (category_first_match "x" exDimBlob).2.2 (by decide) (by decide) (by decide)⟩

/-! ### Claim C1: determinism in the silver input alone -/

set_option maxRecDepth 10000 in
/-- C1 counterexample: with an identical (empty) silver input set, two runs
started one hour apart produce different output families — the time
dimension is built from the wall clock, so the gold output is not a
function of the silver input alone. -/
theorem goldRun_differs_with_start :
    goldRun [] 63072000 ≠ goldRun [] 63075600 := by
  decide

/-- C1 amended: for a fixed silver input set and a fixed run-start
timestamp the gold stage is deterministic, and every output except
`dim_time` (and the views derived from it) is a function of the silver
input alone: the dimension family without `dim_time`, the fact family, and
the KPI family are invariant under a change of run start. -/
theorem goldRun_silver_determined_up_to_time (blobs : List Blob) (t1 t2 : Int) :
    (goldRun blobs t1).dims.filter (fun nt => nt.1 != "dim_time") =
      (goldRun blobs t2).dims.filter (fun nt => nt.1 != "dim_time") ∧
    (goldRun blobs t1).facts = (goldRun blobs t2).facts ∧
    (goldRun blobs t1).kpis = (goldRun blobs t2).kpis := by
  refine ⟨?_, rfl, rfl⟩
  show (goldDimensions blobs t1).filter (fun nt => nt.1 != "dim_time") =
    (goldDimensions blobs t2).filter (fun nt => nt.1 != "dim_time")
  rw [goldDimensions, goldDimensions]
  simp [List.filter_append]

/-! ### Claim C8: complete statistics and per-upload failure counting -/

theorem uploadStage_counts (upload : String → Bool) (dir : String)
    (ts : List (String × Table)) (n : Nat) :
    uploadStage upload dir ts n =
      n + ts.countP (fun nt => !(upload (dir ++ nt.1 ++ ".csv"))) := by
  induction ts generalizing n with
  | nil => rfl
  | cons t ts ih =>
    have hstep : uploadStage upload dir (t :: ts) n =
        uploadStage upload dir ts (if upload (dir ++ t.1 ++ ".csv") then n else n + 1) := rfl
    rw [hstep, List.countP_cons]
    cases hu : upload (dir ++ t.1 ++ ".csv")
    · rw [ih]
      simp only [Bool.false_eq_true, if_false, Bool.not_false, if_true]
      omega
    · rw [ih]
      simp only [if_true, Bool.not_true, Bool.false_eq_true, if_false]
      omega

/-- C8: the orchestrator always returns the full six-field statistics
record (all fields are naturals, hence non-negative), and
`failed_operations` counts exactly the uploads whose put returned failure —
every output table of every stage is attempted, and each failed upload
adds exactly one. -/
theorem run_stats_complete (upload : String → Bool) (blobs : List Blob) (asOf : Int) :
    (processSilverToGold upload blobs asOf).total_silver_files = blobs.length ∧
    (processSilverToGold upload blobs asOf).dimensions_created = (goldRun blobs asOf).dims.length ∧
    (processSilverToGold upload blobs asOf).facts_created = (goldRun blobs asOf).facts.length ∧
    (processSilverToGold upload blobs asOf).kpis_calculated = (goldRun blobs asOf).kpis.length ∧
    (processSilverToGold upload blobs asOf).views_created = (goldRun blobs asOf).views.length ∧
    (processSilverToGold upload blobs asOf).failed_operations =
      (goldRun blobs asOf).dims.countP (fun nt => !(upload ("dimensions/" ++ nt.1 ++ ".csv"))) +
      (goldRun blobs asOf).facts.countP (fun nt => !(upload ("facts/" ++ nt.1 ++ ".csv"))) +
      (goldRun blobs asOf).kpis.countP (fun nt => !(upload ("kpis/" ++ nt.1 ++ ".csv"))) +
      (goldRun blobs asOf).views.countP (fun nt => !(upload ("analytics/" ++ nt.1 ++ ".csv"))) := by
  refine ⟨rfl, rfl, rfl, rfl, rfl, ?_⟩
  have hunfold : (processSilverToGold upload blobs asOf).failed_operations =
      uploadStage upload "analytics/" (goldRun blobs asOf).views
        (uploadStage upload "kpis/" (goldRun blobs asOf).kpis
          (uploadStage upload "facts/" (goldRun blobs asOf).facts
            (uploadStage upload "dimensions/" (goldRun blobs asOf).dims 0))) := rfl
  rw [hunfold, uploadStage_counts, uploadStage_counts, uploadStage_counts, uploadStage_counts]
  omega

/-! ### Claim C10: zero-revenue fallback when total_amount cannot be derived -/

theorem sumCol_zero (rows : List Row) (c : Col)
    (h : ∀ r ∈ rows, rowValue r c = Value.vNum 0) : sumCol rows c = 0 := by
  induction rows with
  | nil => rfl
  | cons r rs ih =>
    have hstep : sumCol (r :: rs) c = ((numOf (rowValue r c)).getD 0) + sumCol rs c := rfl
    rw [hstep, h r (List.mem_cons_self _ _), ih (fun x hx => h x (List.mem_cons_of_mem _ hx))]
    simp [numOf]

/-- C10: when the orders fact lacks `total_amount` and also lacks one of the
factors, the KPI stage synthesizes an all-zero `total_amount` column, and
(as long as some row carries a parseable order date and the fact still has
its `order_id` column) `daily_revenue` and `monthly_revenue` are produced
with zero revenue sums instead of being skipped or raising. -/
theorem kpi_zero_total_amount_fallback (f : Table)
    (hta : "total_amount" ∉ f.cols)
    (hqp : "quantity" ∉ f.cols ∨ "unit_price" ∉ f.cols)
    (hod : "order_date" ∈ f.cols)
    (hid : "order_id" ∈ f.cols)
    (hrow : ∃ r ∈ f.rows, (parseTs (rowValue r "order_date")).isSome) :
    ∃ d m, revenueKpisE [("fact_orders", f)] =
        .ok [("daily_revenue", d), ("monthly_revenue", m)] ∧
      (∀ r ∈ d.rows, rowValue r "daily_revenue" = Value.vNum 0) ∧
      (∀ r ∈ m.rows, rowValue r "monthly_revenue" = Value.vNum 0) := by
  have hens : ensureTotalAmount f = setColumn f "total_amount" (fun _ => Value.vNum 0) := by
    rw [ensureTotalAmount, if_neg hta,
        if_neg (fun hc => hqp.elim (fun h2 => h2 hc.1) (fun h2 => h2 hc.2))]
  set f1 := setColumn f "total_amount" (fun _ => Value.vNum 0) with hf1def
  have hc1 : f1.cols = f.cols ++ ["total_amount"] := by
    rw [hf1def]
    simp only [setColumn, if_neg hta]
  have hod1 : "order_date" ∈ f1.cols := by
    rw [hc1]
    exact List.mem_append_left _ hod
  have hcoe : coerceOrderDate f1 = setColumn f1 "order_date" (fun r =>
      match parseTs (rowValue r "order_date") with
      | some s => Value.vNum ((s : ℚ))
      | none => Value.vNull) := by
    rw [coerceOrderDate, if_pos hod1]
  set f2 := coerceOrderDate f1 with hf2def
  have hc2 : f2.cols = f1.cols := by
    rw [hcoe]
    simp only [setColumn, if_pos hod1]
  have hrows2 : f2.rows = f1.rows.map (fun r => setCol r "order_date"
      (match parseTs (rowValue r "order_date") with
       | some s => Value.vNum ((s : ℚ))
       | none => Value.vNull)) := by
    rw [hcoe]
    rfl
  set f3 := dropNullOrderDate f2 with hf3def
  have hc3 : f3.cols = f2.cols := rfl
  have hrows3 : f3.rows = f2.rows.filter
      (fun r => decide (rowValue r "order_date" ≠ Value.vNull)) := rfl
  -- every surviving row carries total_amount = 0
  have hzero : ∀ r ∈ f3.rows, rowValue r "total_amount" = Value.vNum 0 := by
    intro r hr
    rw [hrows3] at hr
    have hr2 : r ∈ f2.rows := List.mem_of_mem_filter hr
    rw [hrows2] at hr2
    obtain ⟨r1, hr1, rfl⟩ := List.mem_map.mp hr2
    rw [hf1def] at hr1
    simp only [setColumn] at hr1
    obtain ⟨r0, hr0, rfl⟩ := List.mem_map.mp hr1
    rw [rowValue_setCol_ne _ _ _ _ (by decide), rowValue_setCol_self]
  -- at least one row survives the date filter
  have hne3 : f3.rows ≠ [] := by
    obtain ⟨rs, hrs, hps⟩ := hrow
    obtain ⟨s, hs⟩ := Option.isSome_iff_exists.mp hps
    have hm1 : setCol rs "total_amount" (Value.vNum 0) ∈ f1.rows := by
      rw [hf1def]
      simp only [setColumn]
      exact List.mem_map.mpr ⟨rs, hrs, rfl⟩
    have hpd : rowValue (setCol rs "total_amount" (Value.vNum 0)) "order_date" =
        rowValue rs "order_date" :=
      rowValue_setCol_ne _ _ _ _ (by decide)
    have hm2 : setCol (setCol rs "total_amount" (Value.vNum 0)) "order_date"
        (Value.vNum ((s : ℚ))) ∈ f2.rows := by
      rw [hrows2]
      refine List.mem_map.mpr ⟨setCol rs "total_amount" (Value.vNum 0), hm1, ?_⟩
      rw [hpd, hs]
    have hval : rowValue (setCol (setCol rs "total_amount" (Value.vNum 0)) "order_date"
        (Value.vNum ((s : ℚ)))) "order_date" = Value.vNum ((s : ℚ)) :=
      rowValue_setCol_self _ _ _
    refine List.ne_nil_of_mem (a := setCol (setCol rs "total_amount" (Value.vNum 0))
      "order_date" (Value.vNum ((s : ℚ)))) ?_
    rw [hrows3]
    refine List.mem_filter.mpr ⟨hm2, ?_⟩
    rw [hval]
    simp
  have hid3 : "order_id" ∈ f3.cols := by
    rw [hc3, hc2, hc1]
    exact List.mem_append_left _ hid
  have hred : revenueKpisE [("fact_orders", f)] =
      (if (dropNullOrderDate (coerceOrderDate (ensureTotalAmount f))).rows = []
       then Except.ok []
       else if "order_id" ∈ (dropNullOrderDate (coerceOrderDate (ensureTotalAmount f))).cols then
         Except.ok
           [("daily_revenue", dailyRevenueTable (dropNullOrderDate (coerceOrderDate (ensureTotalAmount f)))),
            ("monthly_revenue", monthlyRevenueTable (dropNullOrderDate (coerceOrderDate (ensureTotalAmount f))))]
       else Except.error ()) := rfl
  rw [hens] at hred
  rw [← hf2def, ← hf3def] at hred
  refine ⟨dailyRevenueTable f3, monthlyRevenueTable f3, ?_, ?_, ?_⟩
  · rw [hred, if_neg hne3, if_pos hid3]
  · intro r hr
    simp only [dailyRevenueTable] at hr
    obtain ⟨p, hp, rfl⟩ := List.mem_map.mp hr
    simp only [groupBy] at hp
    obtain ⟨k, hk, rfl⟩ := List.mem_map.mp hp
    have hval : rowValue (aggRevenueRow "date" "daily_revenue" k
        (f3.rows.filter (fun r => midnightKey r == k))) "daily_revenue" =
        Value.vNum (sumCol (f3.rows.filter (fun r => midnightKey r == k)) "total_amount") := rfl
    rw [hval, sumCol_zero]
    intro x hx
    exact hzero x (List.mem_of_mem_filter hx)
  · intro r hr
    simp only [monthlyRevenueTable, setColumn] at hr
    obtain ⟨p, hp, rfl⟩ := List.mem_map.mp hr
    simp only [groupBy] at hp
    obtain ⟨k, hk, rfl⟩ := List.mem_map.mp hp
    have hval : rowValue (aggRevenueRow "year_month" "monthly_revenue" k
        ((f3.rows.map (fun r => setCol r "year_month" (monthKey r))).filter
          (fun r => rowValue r "year_month" == k))) "monthly_revenue" =
        Value.vNum (sumCol ((f3.rows.map (fun r => setCol r "year_month" (monthKey r))).filter
          (fun r => rowValue r "year_month" == k)) "total_amount") := rfl
    rw [hval, sumCol_zero]
    intro x hx
    have hx2 := List.mem_of_mem_filter hx
    obtain ⟨x3, hx3, rfl⟩ := List.mem_map.mp hx2
    rw [rowValue_setCol_ne _ _ _ _ (by decide)]
    exact hzero x3 hx3

def kpiFactEx : Table :=
  ⟨["order_id", "order_date"],
   [[("order_id", Value.vNum 1), ("order_date", Value.vNum 1700000000)],
    [("order_id", Value.vNum 2), ("order_date", Value.vStr "bad")]]⟩

/-- Witness for C10 on a concrete orders fact lacking amounts and
factors. -/
theorem kpi_zero_total_amount_fallback_witness :
    ∃ d m, revenueKpisE [("fact_orders", kpiFactEx)] =
        .ok [("daily_revenue", d), ("monthly_revenue", m)] ∧
      (∀ r ∈ d.rows, rowValue r "daily_revenue" = Value.vNum 0) ∧
      (∀ r ∈ m.rows, rowValue r "monthly_revenue" = Value.vNum 0) :=
  kpi_zero_total_amount_fallback kpiFactEx (by decide) (Or.inl (by decide)) (by decide)
    (by decide) ⟨[("order_id", Value.vNum 1), ("order_date", Value.vNum 1700000000)],
      by decide, by decide⟩

/-! ### Claim C9: the revenue view never matches dim_time dates -/

theorem lookup_eq_none_of_names {β : Type} (l : List (String × β)) (c : String)
    (h : ∀ p ∈ l, p.1 ≠ c) : l.lookup c = none := by
  induction l with
  | nil => rfl
  | cons p t ih =>
    obtain ⟨k, v⟩ := p
    have hk : (c == k) = false := by
      have := h (k, v) (List.mem_cons_self _ _)
      simpa using fun he => this he.symm
    simp only [List.lookup, hk]
    exact ih (fun q hq => h q (List.mem_cons_of_mem _ hq))

theorem lookup_setCol_ne (r : Row) (c c2 : Col) (v : Value) (h : c2 ≠ c) :
    (setCol r c v).lookup c2 = r.lookup c2 := by
  unfold setCol
  by_cases hs : (r.lookup c).isSome
  · rw [if_pos hs]
    exact lookup_replace_ne r c c2 v h
  · rw [if_neg hs, lookup_append]
    have h2 : (c2 == c) = false := by simpa using h
    cases hr : r.lookup c2 <;> simp [hr, List.lookup, h2, Option.orElse]

theorem rowValue_append_right (r1 r2 : Row) (c : Col) (h : r1.lookup c = none) :
    rowValue (r1 ++ r2) c = rowValue r2 c := by
  rw [rowValue, lookup_append, h, rowValue]
  rfl

theorem aggRow_lookup_none (dn rn : String) (k : Value) (g : List Row) (c : Col)
    (h1 : (c == dn) = false) (h2 : (c == rn) = false)
    (h3 : (c == "order_count") = false) (h4 : (c == "avg_order_value") = false) :
    (aggRevenueRow dn rn k g).lookup c = none := by
  simp [aggRevenueRow, List.lookup, h1, h2, h3, h4]

theorem performanceView_rev_none (kpis dims : List (String × Table)) :
    (performanceView kpis dims).lookup "revenue_analytics" = none := by
  unfold performanceView
  cases h1 : kpis.lookup "vehicle_performance" <;>
    cases h2 : dims.lookup "dim_vehicle" <;> simp [List.lookup]

theorem inventoryView_rev_none (kpis dims : List (String × Table)) :
    (inventoryView kpis dims).lookup "revenue_analytics" = none := by
  unfold inventoryView
  cases h1 : kpis.lookup "inventory_turnover" <;>
    cases h2 : dims.lookup "dim_product" <;> simp [List.lookup]

theorem composeViews_revenue (kpis dims : List (String × Table)) (v : Table)
    (hv : (composeViews kpis dims).lookup "revenue_analytics" = some v) :
    ∃ dr dt, kpis.lookup "daily_revenue" = some dr ∧ dims.lookup "dim_time" = some dt ∧
      v = leftJoin (coerceViewDate dr) (projectTable timeAttrCols dt) "date" := by
  rw [composeViews, lookup_append, lookup_append, performanceView_rev_none,
      inventoryView_rev_none] at hv
  unfold revenueView at hv
  cases h1 : kpis.lookup "daily_revenue" <;> rw [h1] at hv
  · simp [List.lookup, Option.orElse] at hv
  · cases h2 : dims.lookup "dim_time" <;> rw [h2] at hv
    · simp [List.lookup, Option.orElse] at hv
    · simp only [List.lookup, Option.orElse] at hv
      refine ⟨_, _, rfl, rfl, ?_⟩
      simpa using hv.symm

theorem optEntry_lookup_ne (n c : String) (o : Option Table) (h : (c == n) = false) :
    (optEntry n o).lookup c = none := by
  cases o <;> simp [optEntry, List.lookup, h]

theorem goldDimensions_time (blobs : List Blob) (asOf : Int) :
    (goldDimensions blobs asOf).lookup "dim_time" = some (timeDim asOf) := by
  rw [goldDimensions, lookup_append, lookup_append, lookup_append, lookup_append,
      lookup_append, lookup_append,
      optEntry_lookup_ne _ _ _ (by decide), optEntry_lookup_ne _ _ _ (by decide),
      optEntry_lookup_ne _ _ _ (by decide), optEntry_lookup_ne _ _ _ (by decide),
      optEntry_lookup_ne _ _ _ (by decide), optEntry_lookup_ne _ _ _ (by decide)]
  rfl

theorem vehiclePerfE_names (facts : List (String × Table)) (k : List (String × Table))
    (h : vehiclePerfE facts = .ok k) : ∀ p ∈ k, p.1 = "vehicle_performance" := by
  unfold vehiclePerfE at h
  split at h
  · injection h with h
    subst h
    intro p hp
    simp at hp
  · split at h
    · injection h with h
      subst h
      intro p hp
      simp only [List.mem_singleton] at hp
      rw [hp]
    · exact absurd h (by simp)

theorem inventoryTurnE_names (facts : List (String × Table)) (k : List (String × Table))
    (h : inventoryTurnE facts = .ok k) : ∀ p ∈ k, p.1 = "inventory_turnover" := by
  unfold inventoryTurnE at h
  split at h
  · injection h with h
    subst h
    intro p hp
    simp at hp
  · split at h
    · injection h with h
      subst h
      intro p hp
      simp only [List.mem_singleton] at hp
      rw [hp]
    · exact absurd h (by simp)

theorem supplyChainKpis_names (blobs : List Blob) :
    ∀ p ∈ supplyChainKpis blobs,
      p.1 = "on_time_delivery" ∨ p.1 = "fulfillment_rate" ∨ p.1 = "cost_efficiency" := by
  intro p hp
  unfold supplyChainKpis at hp
  split at hp
  · exact absurd hp (by simp)
  · rcases List.mem_append.mp hp with h12 | h3
    · rcases List.mem_append.mp h12 with h1 | h2
      · split at h1
        · simp only [List.mem_singleton] at h1
          exact Or.inl (by rw [h1])
        · exact absurd h1 (by simp)
      · split at h2
        · simp only [List.mem_singleton] at h2
          exact Or.inr (Or.inl (by rw [h2]))
        · exact absurd h2 (by simp)
    · split at h3
      · simp only [List.mem_singleton] at h3
        exact Or.inr (Or.inr (by rw [h3]))
      · exact absurd h3 (by simp)

theorem revenueKpisE_shape (facts : List (String × Table)) (k : List (String × Table))
    (h : revenueKpisE facts = .ok k) :
    k = [] ∨ ∃ f3, k = [("daily_revenue", dailyRevenueTable f3),
      ("monthly_revenue", monthlyRevenueTable f3)] := by
  unfold revenueKpisE at h
  split at h
  · injection h with h
    exact Or.inl h.symm
  · split at h
    · injection h with h
      exact Or.inl h.symm
    · split at h
      · injection h with h
        exact Or.inr ⟨_, h.symm⟩
      · exact absurd h (by simp)

theorem calculateKpis_daily (facts : List (String × Table)) (blobs : List Blob) (dr : Table)
    (h : (calculateKpis facts blobs).lookup "daily_revenue" = some dr) :
    ∃ f3, dr = dailyRevenueTable f3 := by
  unfold calculateKpis at h
  split at h
  · rename_i k hE
    unfold calculateKpisE at hE
    split at hE
    · exact absurd hE (by simp)
    · rename_i rev hrev
      split at hE
      · exact absurd hE (by simp)
      · rename_i vp hvp
        split at hE
        · exact absurd hE (by simp)
        · rename_i it hit
          injection hE with hE
          subst hE
          rw [lookup_append, lookup_append, lookup_append] at h
          have hvpn : vp.lookup "daily_revenue" = none :=
            lookup_eq_none_of_names _ _
              (fun p hp => by rw [vehiclePerfE_names facts vp hvp p hp]; decide)
          have hitn : it.lookup "daily_revenue" = none :=
            lookup_eq_none_of_names _ _
              (fun p hp => by rw [inventoryTurnE_names facts it hit p hp]; decide)
          have hscn : (supplyChainKpis blobs).lookup "daily_revenue" = none :=
            lookup_eq_none_of_names _ _
              (fun p hp => by
                rcases supplyChainKpis_names blobs p hp with h1 | h1 | h1 <;>
                  rw [h1] <;> decide)
          rw [hvpn, hitn, hscn] at h
          cases hrl : rev.lookup "daily_revenue" <;> rw [hrl] at h
          · simp [Option.orElse] at h
          · simp only [Option.orElse] at h
            injection h with h
            subst h
            rcases revenueKpisE_shape facts rev hrev with hsh | ⟨f3, hsh⟩
            · rw [hsh] at hrl
              simp [List.lookup] at hrl
            · rw [hsh] at hrl
              simp [List.lookup] at hrl
              exact ⟨f3, hrl.symm⟩
  · simp at h

theorem dailyRevenueTable_date_midnight (f3 : Table) :
    ∀ lr ∈ (dailyRevenueTable f3).rows,
      rowValue lr "date" = Value.vNull ∨
      ∃ msec : Int, rowValue lr "date" = Value.vNum ((msec : ℚ)) ∧
        msec % secondsPerDay = 0 := by
  intro lr hlr
  simp only [dailyRevenueTable] at hlr
  obtain ⟨p, hp, rfl⟩ := List.mem_map.mp hlr
  simp only [groupBy] at hp
  obtain ⟨k, hk, rfl⟩ := List.mem_map.mp hp
  have hval : rowValue (aggRevenueRow "date" "daily_revenue" k
      (f3.rows.filter (fun r => midnightKey r == k))) "date" = k := rfl
  rw [hval]
  have hk2 : k ∈ f3.rows.map midnightKey :=
    dedupFirst_subset _ k (mem_sortBy _ _ k hk)
  obtain ⟨r, _, rfl⟩ := List.mem_map.mp hk2
  rw [midnightKey]
  cases hpt : parseTs (rowValue r "order_date") with
  | none => exact Or.inl rfl
  | some s =>
    refine Or.inr ⟨s - s % secondsPerDay, rfl, ?_⟩
    simp only [secondsPerDay]
    omega

theorem leftJoin_no_match_nulls (l r : Table) (k : Col)
    (hnm : ∀ lr ∈ l.rows, ∀ rr ∈ r.rows, (rowValue rr k == rowValue lr k) = false) :
    ∀ row ∈ (leftJoin l r k).rows, ∃ lr ∈ l.rows,
      row = lr ++ (r.cols.filter (fun c => decide (c ≠ k))).map (fun c => (c, Value.vNull)) := by
  intro row hrow
  simp only [leftJoin] at hrow
  obtain ⟨lr, hlr, hr2⟩ := List.mem_flatMap.mp hrow
  have hfilter : r.rows.filter (fun rr => rowValue rr k == rowValue lr k) = [] :=
    List.filter_eq_nil_iff.mpr (fun rr hrr => by simp [hnm lr hlr rr hrr])
  rw [hfilter] at hr2
  simp only [List.mem_singleton] at hr2
  exact ⟨lr, hlr, hr2⟩

set_option maxRecDepth 8000 in
/-- C9: the `date` column of dim_time keeps the wall-clock time-of-day of
the run start while daily_revenue dates are midnight-normalized, so for
every run started off midnight the revenue_analytics left join matches
nothing: every row has null in all five dim_time attribute columns. -/
theorem revenue_view_time_attrs_null (blobs : List Blob) (asOf : Int)
    (hmod : asOf % secondsPerDay ≠ 0) (v : Table)
    (hv : (goldRun blobs asOf).views.lookup "revenue_analytics" = some v) :
    ∀ r ∈ v.rows,
      rowValue r "year" = Value.vNull ∧ rowValue r "quarter" = Value.vNull ∧
      rowValue r "month" = Value.vNull ∧ rowValue r "month_name" = Value.vNull ∧
      rowValue r "day_name" = Value.vNull := by
  have hv2 : (composeViews (calculateKpis (goldFactTables blobs) blobs)
      (goldDimensions blobs asOf)).lookup "revenue_analytics" = some v := hv
  obtain ⟨dr, dt, hdr, hdt, hveq⟩ := composeViews_revenue _ _ v hv2
  rw [goldDimensions_time] at hdt
  injection hdt with hdt
  subst hdt
  obtain ⟨f3, hf3⟩ := calculateKpis_daily _ _ _ hdr
  subst hf3
  subst hveq
  intro row hrow
  have hnm : ∀ lr ∈ (coerceViewDate (dailyRevenueTable f3)).rows,
      ∀ rr ∈ (projectTable timeAttrCols (timeDim asOf)).rows,
      (rowValue rr "date" == rowValue lr "date") = false := by
    intro lr hlr rr hrr
    simp only [coerceViewDate, setColumn] at hlr
    obtain ⟨lr0, hlr0, rfl⟩ := List.mem_map.mp hlr
    simp only [projectTable] at hrr
    have hav : availableCols timeAttrCols (timeDim asOf) = timeAttrCols := rfl
    rw [hav] at hrr
    obtain ⟨r0, hr0, rfl⟩ := List.mem_map.mp hrr
    rw [timeDim] at hr0
    simp only [List.mem_map, List.mem_range] at hr0
    obtain ⟨k2, _, rfl⟩ := hr0
    have hrv : rowValue (projectRow timeAttrCols
        (mkTimeRow (asOf - 730*secondsPerDay + (k2 : Int) * secondsPerDay))) "date" =
        Value.vNum (((asOf - 730*secondsPerDay + (k2 : Int) * secondsPerDay : Int) : ℚ)) := by
      rw [rowValue_projectRow _ _ _ (by decide : ("date" : Col) ∈ timeAttrCols),
          rowValue_mkTimeRow_date]
    rw [hrv, rowValue_setCol_self]
    rcases dailyRevenueTable_date_midnight f3 lr0 hlr0 with hnull | ⟨msec, hms, hm0⟩
    · rw [hnull]
      simp [parseTs]
    · rw [hms]
      simp only [parseTs, Rat.den_intCast, Rat.num_intCast, if_pos rfl, ite_true]
      simp only [beq_eq_false_iff_ne, ne_eq, Value.vNum.injEq]
      intro hcast
      have heq : (asOf - 730*secondsPerDay + (k2 : Int)*secondsPerDay) = msec := by
        exact_mod_cast hcast
      simp only [secondsPerDay] at heq hm0 hmod
      omega
  obtain ⟨lr, hlr, hre⟩ := leftJoin_no_match_nulls _ _ _ hnm row hrow
  subst hre
  simp only [coerceViewDate, setColumn] at hlr
  obtain ⟨lr0, hlr0, rfl⟩ := List.mem_map.mp hlr
  simp only [dailyRevenueTable] at hlr0
  obtain ⟨p, _, rfl⟩ := List.mem_map.mp hlr0
  have hnone : ∀ (c2 : Col) (w : Value), c2 ≠ "date" →
      (c2 == "daily_revenue") = false → (c2 == "order_count") = false →
      (c2 == "avg_order_value") = false →
      (setCol (aggRevenueRow "date" "daily_revenue" p.1 p.2) "date" w).lookup c2 = none := by
    intro c2 w hne h2 h3 h4
    rw [lookup_setCol_ne _ _ _ _ hne]
    exact aggRow_lookup_none _ _ _ _ _ (by simpa using hne) h2 h3 h4
  refine ⟨?_, ?_, ?_, ?_, ?_⟩ <;>
    rw [rowValue_append_right _ _ _
      (hnone _ _ (by decide) (by decide) (by decide) (by decide))] <;> rfl

def viewBlobEx : Blob :=
  ⟨"orders_2024_silver.csv",
   ⟨["order_id", "order_date", "quantity", "unit_price"],
    [[("order_id", Value.vNum 1), ("order_date", Value.vNum (86400*19990)),
      ("quantity", Value.vNum 2), ("unit_price", Value.vNum 3)],
     [("order_id", Value.vNum 2), ("order_date", Value.vNum (86400*19991 + 7200)),
      ("quantity", Value.vNum 1), ("unit_price", Value.vNum 5)]]⟩⟩

/-- A run started at 01:00 wall-clock time. -/
def viewAsOfEx : Int := 86400*20000 + 3600

def viewVEx : Table :=
  ((goldRun [viewBlobEx] viewAsOfEx).views.lookup "revenue_analytics").getD emptyTable

def viewRowEx : Row := viewVEx.rows.headD []

set_option maxRecDepth 200000 in
/-- Witness for C9 on a concrete run whose start has a non-zero
time-of-day. -/
theorem revenue_view_time_attrs_null_witness :
    rowValue viewRowEx "year" = Value.vNull ∧
    rowValue viewRowEx "quarter" = Value.vNull ∧
    rowValue viewRowEx "month" = Value.vNull ∧
    rowValue viewRowEx "month_name" = Value.vNull ∧
    rowValue viewRowEx "day_name" = Value.vNull :=
  revenue_view_time_attrs_null [viewBlobEx] viewAsOfEx (by decide) viewVEx (by decide)
    viewRowEx (by decide)

end GoldLayer
